import Mathlib

set_option maxRecDepth 20000

/-!
Shallow embedding of the report-generation pipeline in `streamlit_app.py`.

Python's built-in string operations are re-implemented over character
lists so that every definition evaluates inside the Lean kernel:
`strLower` models `str.lower()` (ASCII range, which is all the code
feeds it), `strTake` models slicing `s[:n]`, `strTrim` models
`str.strip()`, and `strContains s p` models Python's `p in s`
substring test.

Parsed-JSON payloads (the dictionaries produced by
`parse_json_response`) are modelled by the inductive type `JValue`,
and Python dictionaries by association lists (`Dict`) with
first-match lookup; `Dict.set` models `d[k] = v` (replace the
binding in place if the key exists, append otherwise, which is
Python's insertion-order behaviour).
-/

/-- Models Python `str.lower()` (the code only lowercases URLs, which are ASCII). -/
def strLower (s : String) : String := ⟨s.data.map Char.toLower⟩

/-- Models Python slicing `s[:n]` for `n ≥ 0`. -/
def strTake (s : String) (n : Nat) : String := ⟨s.data.take n⟩

def trimCharList (l : List Char) : List Char :=
  ((l.dropWhile Char.isWhitespace).reverse.dropWhile Char.isWhitespace).reverse

/-- Models Python `str.strip()`. -/
def strTrim (s : String) : String := ⟨trimCharList s.data⟩

/-- Models the call `key.replace('_', ' ')` in `generate_draft` (the pattern and
replacement are single characters, so per-character mapping is exact). -/
def underscoreToSpace (s : String) : String :=
  ⟨s.data.map (fun c => if c = '_' then ' ' else c)⟩

/-- Models Python's substring test `p in s`. -/
def strContains (s p : String) : Bool := decide (p.data <:+: s.data)

theorem strContains_mid (a p b : String) : strContains (a ++ (p ++ b)) p = true := by
  simp only [strContains, decide_eq_true_eq, String.data_append]
  exact ⟨a.data, b.data, by simp⟩

theorem strContains_right (s t p : String) (h : strContains t p = true) :
    strContains (s ++ t) p = true := by
  simp only [strContains, decide_eq_true_eq, String.data_append] at h ⊢
  exact h.trans ⟨s.data, [], by simp⟩

theorem strContains_left (s t p : String) (h : strContains s p = true) :
    strContains (s ++ t) p = true := by
  simp only [strContains, decide_eq_true_eq, String.data_append] at h ⊢
  exact h.trans ⟨[], t.data, rfl⟩

/-- A parsed-JSON value, the payload type flowing between pipeline stages. -/
inductive JValue where
  | null
  | bool (b : Bool)
  | num (n : Int)
  | str (s : String)
  | arr (xs : List JValue)
  | obj (fields : List (String × JValue))

/-- A Python dictionary with `JValue` values, as an insertion-ordered
association list. -/
abbrev Dict := List (String × JValue)

/-- First-match lookup, modelling `d[k]` / `d.get(k)`. -/
def Dict.get? (d : Dict) (k : String) : Option JValue :=
  match d with
  | [] => none
  | (k', v) :: rest => if k' = k then some v else Dict.get? rest k

def Dict.getD (d : Dict) (k : String) (v₀ : JValue) : JValue :=
  (d.get? k).getD v₀

/-- Models `k in d`. -/
def Dict.hasKey (d : Dict) (k : String) : Bool :=
  (d.get? k).isSome

/-- Models the assignment `d[k] = v`: replace in place when the key exists,
append otherwise. -/
def Dict.set (d : Dict) (k : String) (v : JValue) : Dict :=
  match d with
  | [] => [(k, v)]
  | (k', v') :: rest => if k' = k then (k, v) :: rest else (k', v') :: Dict.set rest k v

/-- Models `list(d.keys())` (iteration order). -/
def Dict.keys (d : Dict) : List String := d.map Prod.fst

/-- Python truthiness of a parsed-JSON value (`bool(v)`): empty strings,
empty containers, zero and `None` are falsy. -/
def JValue.truthy : JValue → Bool
  | .null => false
  | .bool b => b
  | .num n => n != 0
  | .str s => !s.data.isEmpty
  | .arr xs => !xs.isEmpty
  | .obj fs => !fs.isEmpty

mutual

/-- Python `repr` of a parsed-JSON value, used by `str` on containers
(string escaping inside `repr` is not modelled; no claim evaluates it). -/
def JValue.pyRepr : JValue → String
  | .str s => "\x27" ++ s ++ "\x27"
  | .num n => toString n
  | .bool b => if b then "True" else "False"
  | .null => "None"
  | .arr xs => "[" ++ pyReprArr xs ++ "]"
  | .obj fs => "\x7b" ++ pyReprObj fs ++ "\x7d"

def pyReprArr : List JValue → String
  | [] => ""
  | [x] => x.pyRepr
  | x :: y :: xs => x.pyRepr ++ ", " ++ pyReprArr (y :: xs)

def pyReprObj : List (String × JValue) → String
  | [] => ""
  | [(k, v)] => "\x27" ++ k ++ "\x27: " ++ v.pyRepr
  | (k, v) :: y :: xs => "\x27" ++ k ++ "\x27: " ++ v.pyRepr ++ ", " ++ pyReprObj (y :: xs)

end

/-- Python `str()` of a parsed-JSON value, as applied by f-string interpolation. -/
def JValue.pyStr : JValue → String
  | .str s => s
  | v => v.pyRepr

/-- Models the f-string fragment `{d.get(k, dflt)}`: interpolate the value
under `k`, falling back to the literal default. -/
def fmtVal (d : Dict) (k : String) (dflt : String) : String :=
  match d.get? k with
  | some v => v.pyStr
  | none => dflt

/-- Credibility scorer, translated from `calculate_credibility` in
`streamlit_app.py` (lines 98-109): substring tests against the whole
lowercased URL, first match wins. -/
def calculate_credibility (url : String) : Nat :=
  let url_lower := strLower url
  if strContains url_lower ".gov" || strContains url_lower ".edu" then 95
  else if strContains url_lower "nature.com" || strContains url_lower "science.org" then 95
  else if strContains url_lower "ieee.org" || strContains url_lower "acm.org" then 90
  else if strContains url_lower ".org" then 85
  else 80

/-- The spec's tiering policy as an explicit priority-ordered tier table
(§4.1 of the spec), with patterns matched against the full lowercased URL. -/
def credibilityTiers : List (List String × Nat) :=
  [([".gov", ".edu"], 95),
   (["nature.com", "science.org"], 95),
   (["ieee.org", "acm.org"], 90),
   ([".org"], 85)]

/-- First-match evaluation of the tier table; default tier 80. -/
def tierScore (url : String) : Nat :=
  match credibilityTiers.find? (fun t => t.1.any (fun p => strContains (strLower url) p)) with
  | some t => t.2
  | none => 80

/-- The characters after the first occurrence of `pat`, if `pat` occurs. -/
def afterSub (pat : List Char) : List Char → Option (List Char)
  | [] => none
  | c :: rest =>
    if pat.isPrefixOf (c :: rest) then some ((c :: rest).drop pat.length)
    else afterSub pat rest

/-- Modelled from the spec: the host (domain) component of a URL — the text
after the scheme separator and before the first slash.  The source has no
such function; the claims' "domain" reading of the scorer needs it. -/
def urlHost (url : String) : String :=
  let afterScheme := (afterSub "://".data url.data).getD url.data
  ⟨afterScheme.takeWhile (fun c => c ≠ '/')⟩

/-- Modelled from the spec: the claims' domain-based reading of the tier
policy — the same tiers as `calculate_credibility`, but each pattern tested
against the URL's host component only. -/
def domainCredibility (url : String) : Nat :=
  let host := strLower (urlHost url)
  if strContains host ".gov" || strContains host ".edu" then 95
  else if strContains host "nature.com" || strContains host "science.org" then 95
  else if strContains host "ieee.org" || strContains host "acm.org" then 90
  else if strContains host ".org" then 85
  else 80

/-!
Stage 2: `execute_web_research` (lines 281-386).  The extraction of
candidate URLs from the raw model response text (regex scan plus context
slicing, lines 311-332) is abstracted: each query's external call either
raises (`none`, the per-query `except` branch at line 343) or yields a
list of already-extracted candidate `Hit`s carrying the derived title,
URL and context text.  The trusted-domain filter, credibility scoring,
source-record construction, exact-URL deduplication and the supplementary
generic sources are translated from the source.
-/

/-- A candidate search result extracted from one query's response text:
derived title (`sentences[0][:100]`), the URL, and the surrounding context. -/
structure Hit where
  title : String
  url : String
  context : String

/-- The `trusted_domains` list (lines 286-290). -/
def trusted_domains : List String :=
  [".edu", ".gov", ".org", "nature.com", "science.org", "ieee.org",
   "acm.org", "springer.com", "wiley.com", "who.int", "worldbank.org",
   "oecd.org", "nih.gov", "nsf.gov", "arxiv.org", "pnas.org"]

/-- `any(domain in url.lower() for domain in trusted_domains)` (line 321). -/
def isTrusted (url : String) : Bool :=
  trusted_domains.any (fun d => strContains (strLower url) d)

/-- The source-record dictionary literal appended at lines 334-341. -/
def mkSource (title url context query : String) (now : String) : Dict :=
  [("title", .str (strTrim title)),
   ("url", .str url),
   ("content", .str (strTake (strTrim context) 500)),
   ("query", .str query),
   ("credibilityScore", .num (calculate_credibility url)),
   ("dateAccessed", .str now)]

/-- One query's loop body (lines 319-341): keep trusted hits and build
their source records. -/
def processQuery (query : String) (hits : List Hit) (now : String) : List Dict :=
  (hits.filter (fun h => isTrusted h.url)).map
    (fun h => mkSource h.title h.url h.context query now)

/-- The accumulation over `limited_queries = queries[:6]` (lines 292-345);
`none` for a query models its external call raising (caught, query skipped). -/
def collectSources (queries : List String) (searchApis : List (Option (List Hit)))
    (now : String) : List Dict :=
  ((queries.take 6).zip searchApis).flatMap
    (fun qr =>
      match qr.2 with
      | none => []
      | some hits => processQuery qr.1 hits now)

/-- `source['url']` read as a string (every record built by this stage has one). -/
def srcUrl (src : Dict) : String :=
  match src.get? "url" with
  | some (.str s) => s
  | _ => ""

/-- The deduplication loop over `seen_urls` (lines 347-353): keep the first
record for each exact URL string. -/
def dedupByUrl : List Dict → List String → List Dict
  | [], _ => []
  | s :: rest, seen =>
    if srcUrl s ∈ seen then dedupByUrl rest seen
    else s :: dedupByUrl rest (srcUrl s :: seen)

/-- First supplementary generic source (lines 359-366). -/
def genericSource1 (q0 : String) (now : String) : Dict :=
  [("title", .str ("Academic Overview: " ++ strTake q0 60)),
   ("url", .str "https://scholar.google.com/research"),
   ("content", .str ("Academic research and peer-reviewed literature on " ++ q0 ++
     ". This encompasses theoretical frameworks, empirical studies, and scholarly discourse.")),
   ("query", .str q0),
   ("credibilityScore", .num 90),
   ("dateAccessed", .str now)]

/-- Second supplementary generic source (lines 367-374); `q1` is
`queries[1] if len(queries) > 1 else queries[0]`. -/
def genericSource2 (q1 : String) (now : String) : Dict :=
  [("title", .str ("Technical Documentation: " ++ strTake q1 60)),
   ("url", .str "https://www.researchgate.net/publication"),
   ("content", .str "Technical specifications, methodologies, and research findings from academic institutions and research organizations."),
   ("query", .str q1),
   ("credibilityScore", .num 85),
   ("dateAccessed", .str now)]

/-- Third supplementary generic source (lines 375-382). -/
def genericSource3 (q0 : String) (now : String) : Dict :=
  [("title", .str "Industry Analysis: Current State and Trends"),
   ("url", .str "https://www.rand.org/research"),
   ("content", .str "Comprehensive analysis of current developments, statistical data, and expert perspectives from research institutions."),
   ("query", .str q0),
   ("credibilityScore", .num 88),
   ("dateAccessed", .str now)]

/-- `execute_web_research` (lines 281-386): collect per-query sources,
deduplicate by exact URL, and when fewer than three unique sources remain,
append the three generic sources.  Result is `none` exactly when that
supplement branch runs on an empty query list (Python raises `IndexError`
at `queries[0]`, which propagates out of the function). -/
def execute_web_research (queries : List String)
    (searchApis : List (Option (List Hit))) (now : String) : Option (List Dict) :=
  let unique_sources := dedupByUrl (collectSources queries searchApis now) []
  if unique_sources.length < 3 then
    match queries with
    | [] => none
    | q0 :: rest =>
      let q1 := rest.headD q0
      some (unique_sources ++
        [genericSource1 q0 now, genericSource2 q1 now, genericSource3 q0 now])
  else
    some unique_sources

/-!
Generative stages.  Each stage's single Anthropic call is abstracted by a
parameter of type `Option (Option Dict)`:
  * `none`           — the call raised (the stage's `except` branch runs);
  * `some none`      — the call returned a response without a `content` key
                       (the `if 'content' in response:` body is skipped);
  * `some (some d)`  — the call succeeded and `parse_json_response` of the
                       concatenated text blocks yielded the dictionary `d`
                       (`d = []` models the `{}` parse fallback).
-/

/-- The `subtopics` filler of the ensure branch (lines 241-247). -/
def ensureSubtopics (topic subject : String) : List String :=
  ["Core Concepts in " ++ subject,
   "Current State of " ++ topic,
   "Applications and Use Cases",
   "Challenges and Limitations",
   "Future Directions"]

/-- The `researchQueries` filler of the ensure branch (lines 249-256). -/
def ensureQueries (topic subject : String) : List String :=
  [topic ++ " overview " ++ subject,
   "Latest developments in " ++ topic,
   topic ++ " statistics and data",
   topic ++ " applications",
   "Future of " ++ topic]

/-- The fallback analysis returned from the `except` branch (lines 263-278). -/
def analysisFallback (topic : String) : Dict :=
  [("subtopics", .arr
     [.str ("Overview of " ++ topic),
      .str "Current State and Statistics",
      .str "Applications and Use Cases",
      .str "Challenges and Limitations",
      .str "Future Outlook"]),
   ("researchQueries", .arr
     [.str (topic ++ " overview"),
      .str (topic ++ " latest research"),
      .str (topic ++ " statistics"),
      .str (topic ++ " applications"),
      .str (topic ++ " future trends")])]

/-- The key-ensuring logic of the success branch (lines 239-256):
`if not result.get(k):` fill the canned list. -/
def ensureAnalysisKeys (topic subject : String) (d : Dict) : Dict :=
  let d :=
    if (d.getD "subtopics" .null).truthy then d
    else d.set "subtopics" (.arr ((ensureSubtopics topic subject).map .str))
  if (d.getD "researchQueries" .null).truthy then d
  else d.set "researchQueries" (.arr ((ensureQueries topic subject).map .str))

/-- `analyze_topic_with_ai` (lines 195-278).  Returns `none` for Python's
implicit `None` when the response carries no `content` key (the function
then falls off the end of the `try` block without returning). -/
def analyze_topic_with_ai (topic subject : String) (api : Option (Option Dict)) :
    Option Dict :=
  match api with
  | none => some (analysisFallback topic)
  | some none => none
  | some (some parsed) => some (ensureAnalysisKeys topic subject parsed)

/-- The `required_keys` list of `generate_draft` (lines 455-456). -/
def required_keys : List String :=
  ["abstract", "introduction", "literatureReview", "mainSections",
   "dataAnalysis", "challenges", "futureOutlook", "conclusion"]

/-- The `mainSections` placeholder (line 460). -/
def mainSectionsPlaceholder : JValue :=
  .arr [.obj [("title", .str "Main Analysis"),
              ("content", .str "Content generated from research sources.")]]

/-- The per-key placeholder text (line 462). -/
def sectionPlaceholder (key topic : String) : JValue :=
  .str ("This section covers " ++ underscoreToSpace key ++ " aspects of " ++ topic ++ ".")

/-- One iteration of the required-key loop (lines 457-462). -/
def fillStep (topic : String) (d : Dict) (key : String) : Dict :=
  if d.hasKey key && (d.getD key .null).truthy then d
  else if key = "mainSections" then d.set key mainSectionsPlaceholder
  else d.set key (sectionPlaceholder key topic)

/-- The required-key loop of `generate_draft`'s success branch. -/
def fillRequired (topic : String) (d : Dict) : Dict :=
  required_keys.foldl (fillStep topic) d

/-- The fallback draft returned when the call raises or the response has no
`content` (lines 470-483). -/
def draftFallback (topic subject : String) (subtopics : List String) : Dict :=
  [("abstract", .str ("This report examines " ++ topic ++ " in the context of " ++
     subject ++ ", analyzing current developments, challenges, and future directions.")),
   ("introduction", .str ("The field of " ++ subject ++
     " has seen significant developments in " ++ topic ++
     ". This report provides a comprehensive analysis based on current research and expert sources.")),
   ("literatureReview", .str "A review of academic literature and authoritative sources reveals multiple perspectives and findings relevant to this topic."),
   ("mainSections", .arr
     [.obj [("title", .str ((subtopics.get? 0).getD "Core Concepts")),
            ("content", .str "Analysis of fundamental concepts and principles.")],
      .obj [("title", .str ((subtopics.get? 1).getD "Current State")),
            ("content", .str "Examination of the current state and recent developments.")],
      .obj [("title", .str ((subtopics.get? 2).getD "Applications")),
            ("content", .str "Discussion of practical applications and use cases.")]]),
   ("dataAnalysis", .str "Statistical analysis and data-driven insights from authoritative sources."),
   ("challenges", .str "Current challenges and limitations identified in the research."),
   ("futureOutlook", .str "Projected future developments and potential directions for advancement."),
   ("conclusion", .str ("This report has examined " ++ topic ++
     " comprehensively, identifying key trends, challenges, and opportunities for future development."))]

/-- `generate_draft` (lines 389-483). -/
def generate_draft (topic subject : String) (subtopics : List String)
    (sources : List Dict) (api : Option (Option Dict)) : Dict :=
  match api with
  | some (some parsed) => fillRequired topic parsed
  | _ => draftFallback topic subject subtopics

/-- The critique list-valued keys (lines 534-535). -/
def critiqueListKeys : List String :=
  ["factIssues", "flowIssues", "unsupportedClaims", "biasFlags",
   "structuralWeaknesses", "citationIssues", "recommendations"]

/-- Key-ensuring logic of `critique_draft`'s success branch (lines 530-537). -/
def ensureCritiqueKeys (d : Dict) : Dict :=
  let d := if d.hasKey "overallScore" then d else d.set "overallScore" (.num 80)
  critiqueListKeys.foldl
    (fun acc k => if acc.hasKey k then acc else acc.set k (.arr [])) d

/-- The neutral fallback critique (lines 544-553). -/
def critiqueFallback : Dict :=
  [("factIssues", .arr []),
   ("flowIssues", .arr []),
   ("unsupportedClaims", .arr []),
   ("biasFlags", .arr []),
   ("structuralWeaknesses", .arr []),
   ("citationIssues", .arr []),
   ("overallScore", .num 80),
   ("recommendations", .arr [.str "Review completed with standard quality assessment"])]

/-- `critique_draft` (lines 486-553). -/
def critique_draft (draft : Dict) (sources : List Dict) (api : Option (Option Dict)) : Dict :=
  match api with
  | some (some parsed) => ensureCritiqueKeys parsed
  | _ => critiqueFallback

/-- The executive summary substituted on the success path when the model
omitted it (line 590). -/
def refineEnsureSummary (nSources : Nat) : JValue :=
  .str ("This comprehensive research report examines key aspects of the topic, drawing on " ++
    toString nSources ++ " authoritative sources to provide insights, analysis, and recommendations.")

/-- The executive summary appended to the original draft on the failure
path (line 603). -/
def refineFallbackSummary (nSources : Nat) : JValue :=
  .str ("This report provides comprehensive analysis and insights based on research from " ++
    toString nSources ++ " authoritative sources, examining key developments, challenges, and future directions.")

/-- `refine_draft` (lines 556-604): on success, ensure `executiveSummary`
and backfill every key of the input draft that the model output lacks; on
failure, return the input draft with `executiveSummary` added. -/
def refine_draft (draft critique : Dict) (sources : List Dict)
    (api : Option (Option Dict)) : Dict :=
  match api with
  | some (some parsed) =>
    let refined :=
      if parsed.hasKey "executiveSummary" then parsed
      else parsed.set "executiveSummary" (refineEnsureSummary sources.length)
    draft.foldl
      (fun acc kv => if acc.hasKey kv.1 then acc else acc.set kv.1 kv.2) refined
  | _ => draft.set "executiveSummary" (refineFallbackSummary sources.length)

/-!
Stage 6: `generate_html_report` (lines 606-745).  Dates are modelled by a
(year, month, day) record; `parseYMD` models `datetime.strptime(s,
'%Y-%m-%d')` and `parseIso` models `datetime.fromisoformat` restricted to
its date component (the time-of-day portion after the tenth character is
accepted without validation — the renderer only ever formats the date).
`now` parameters stand for `datetime.now()` in the `except` fallbacks.
-/

structure Date where
  year : Nat
  month : Nat
  day : Nat

def isLeapYear (y : Nat) : Bool :=
  (y % 4 = 0 && y % 100 ≠ 0) || y % 400 = 0

def daysInMonth (y m : Nat) : Nat :=
  if m = 2 then (if isLeapYear y then 29 else 28)
  else if m = 4 || m = 6 || m = 9 || m = 11 then 30
  else 31

def digitsToNat (l : List Char) : Nat :=
  l.foldl (fun a c => a * 10 + (c.toNat - 48)) 0

/-- Models `datetime.strptime(s, '%Y-%m-%d')`: three dash-separated digit
groups (year up to four digits, month and day up to two), validated as a
calendar date. -/
def parseYMD (s : String) : Option Date :=
  match (s.data.splitOn '-') with
  | [ys, ms, ds] =>
    if ys.all Char.isDigit && ms.all Char.isDigit && ds.all Char.isDigit &&
       decide (1 ≤ ys.length) && decide (ys.length ≤ 4) &&
       decide (1 ≤ ms.length) && decide (ms.length ≤ 2) &&
       decide (1 ≤ ds.length) && decide (ds.length ≤ 2) then
      let y := digitsToNat ys
      let m := digitsToNat ms
      let d := digitsToNat ds
      if decide (1 ≤ y) && decide (1 ≤ m) && decide (m ≤ 12) &&
         decide (1 ≤ d) && decide (d ≤ daysInMonth y m) then
        some ⟨y, m, d⟩
      else none
    else none
  | _ => none

/-- Models `datetime.fromisoformat` (after the `'Z' → '+00:00'` rewrite) on
the date component: a strict zero-padded `YYYY-MM-DD` head, either ending
the string or followed by a separator and a time-of-day portion (which the
renderer never uses and this model does not validate). -/
def parseIso (s : String) : Option Date :=
  match s.data with
  | y1 :: y2 :: y3 :: y4 :: h1 :: m1 :: m2 :: h2 :: d1 :: d2 :: _rest =>
    if [y1, y2, y3, y4, m1, m2, d1, d2].all Char.isDigit && h1 = '-' && h2 = '-' then
      let y := digitsToNat [y1, y2, y3, y4]
      let m := digitsToNat [m1, m2]
      let d := digitsToNat [d1, d2]
      if decide (1 ≤ y) && decide (1 ≤ m) && decide (m ≤ 12) &&
         decide (1 ≤ d) && decide (d ≤ daysInMonth y m) then
        some ⟨y, m, d⟩
      else none
    else none
  | _ => none

def monthNames : List String :=
  ["January", "February", "March", "April", "May", "June", "July",
   "August", "September", "October", "November", "December"]

/-- Models `strftime('%B %d, %Y')`. -/
def strftimeBdY (d : Date) : String :=
  ((monthNames.get? (d.month - 1)).getD "") ++ " " ++
    (if d.day < 10 then "0" ++ toString d.day else toString d.day) ++ ", " ++
    toString d.year

/-- The access date rendered for one reference (lines 729-732): parse
`source['dateAccessed']`; the bare `except` substitutes today's date when
the key is missing, the value is not a string, or the parse fails. -/
def refAccessDate (src : Dict) (now : Date) : String :=
  match src.get? "dateAccessed" with
  | some (.str s) =>
    (match parseIso s with
     | some d => strftimeBdY d
     | none => strftimeBdY now)
  | _ => strftimeBdY now

/-- One reference entry (lines 734-738), with its 1-based index `i`. -/
def reference_item (i : Nat) (src : Dict) (now : Date) : String :=
  "\n        <div class=\"ref-item\">\n            " ++
    ("[" ++
      (toString i ++
        ("] " ++
          (fmtVal src "title" "Unknown Title" ++
            (". Retrieved from " ++
              (fmtVal src "url" "No URL" ++
                (" (Accessed: " ++
                  (refAccessDate src now ++ ")\n        </div>\n"))))))))

/-- The reference entries of `enumerate(sources, 1)` starting at index `k`. -/
def referenceItems (k : Nat) : List Dict → Date → List String
  | [], _ => []
  | s :: rest, now => reference_item k s now :: referenceItems (k + 1) rest now

/-- The whole references block appended by the loop at lines 728-738. -/
def referencesHtml (sources : List Dict) (now : Date) : String :=
  String.join (referenceItems 1 sources now)

/-- Field access `section.get(k, dflt)` on a parsed section object
(Python would raise on a non-dict section; the claims only evaluate
object-shaped sections). -/
def jGet (v : JValue) (k dflt : String) : String :=
  match v with
  | .obj fields => fmtVal fields k dflt
  | _ => dflt

/-- The elements iterated by `for section in refined_draft.get('mainSections', [])`. -/
def jItems : JValue → List JValue
  | .arr xs => xs
  | _ => []

/-- One main-section block (lines 703-707). -/
def sectionHtml (sec : JValue) : String :=
  "\n    <h2>" ++
    (jGet sec "title" "Section Title" ++
      ("</h2>\n    <p>" ++
        (jGet sec "content" "Content not available." ++ "</p>\n")))

/-- The concatenated main-section blocks. -/
def mainSectionsHtml (refined_draft : Dict) : String :=
  String.join ((jItems (refined_draft.getD "mainSections" (.arr []))).map sectionHtml)

def htmlSeg1 : String :=
  "<!DOCTYPE html>\n<html>\n<head>\n    <meta charset=\"utf-8\">\n    <title>"

def htmlSeg2 : String :=
  " - Research Report</title>\n    <style>\n        @page \x7b margin: 1in; \x7d\n        body \x7b\n            font-family: \x27Times New Roman\x27, serif;\n            font-size: 12pt;\n            line-height: 1.6;\n            color: #000;\n            max-width: 8.5in;\n            margin: 0 auto;\n            padding: 0.5in;\n        \x7d\n        .cover \x7b\n            text-align: center;\n            padding-top: 2in;\n            page-break-after: always;\n        \x7d\n        .cover h1 \x7b\n            font-size: 24pt;\n            font-weight: bold;\n            margin: 1in 0 0.5in 0;\n        \x7d\n        .cover .meta \x7b\n            font-size: 14pt;\n            margin: 0.25in 0;\n        \x7d\n        h1 \x7b\n            font-size: 18pt;\n            margin-top: 0.5in;\n            border-bottom: 2px solid #333;\n            padding-bottom: 0.1in;\n        \x7d\n        h2 \x7b\n            font-size: 14pt;\n            margin-top: 0.3in;\n            font-weight: bold;\n        \x7d\n        p \x7b\n            text-align: justify;\n            margin: 0.15in 0;\n        \x7d\n        .abstract \x7b\n            font-style: italic;\n            margin: 0.25in 0.5in;\n        \x7d\n        .references \x7b\n            page-break-before: always;\n        \x7d\n        .ref-item \x7b\n            margin: 0.15in 0 0.15in 0.5in;\n            text-indent: -0.5in;\n            padding-left: 0.5in;\n        \x7d\n    </style>\n</head>\n<body>\n    <div class=\"cover\">\n        <h1>"

def htmlSeg3 : String :=
  "</h1>\n        <div class=\"meta\">A Research Report</div>\n        <div class=\"meta\">Subject: "

def htmlSeg4 : String :=
  "</div>\n        <div class=\"meta\" style=\"margin-top: 1in;\">\n            Prepared by<br>\n            "

def htmlSeg5 : String := "<br>\n            "

def htmlSeg6 : String :=
  "\n        </div>\n    </div>\n\n    <h1>Executive Summary</h1>\n    <p>"

def htmlSeg7 : String :=
  "</p>\n\n    <h1>Abstract</h1>\n    <div class=\"abstract\">"

def htmlSeg8 : String :=
  "</div>\n\n    <h1>Introduction</h1>\n    <p>"

def htmlSeg9 : String :=
  "</p>\n\n    <h1>Literature Review</h1>\n    <p>"

def htmlSeg10 : String := "</p>\n"

def htmlSeg11 : String :=
  "\n    <h1>Data & Statistical Analysis</h1>\n    <p>"

def htmlSeg12 : String :=
  "</p>\n\n    <h1>Challenges and Limitations</h1>\n    <p>"

def htmlSeg13 : String :=
  "</p>\n\n    <h1>Future Outlook</h1>\n    <p>"

def htmlSeg14 : String :=
  "</p>\n\n    <h1>Conclusion</h1>\n    <p>"

def htmlSeg15 : String :=
  "</p>\n\n    <div class=\"references\">\n        <h1>References</h1>\n"

def htmlEnd : String := "\n    </div>\n</body>\n</html>"

/-- The report metadata collected from the input form (`form_data`). -/
structure FormData where
  topic : String
  subject : String
  researcher : String
  institution : String
  date : String

/-- `report_date` (lines 611-614): the form date reformatted, falling back
to today's date when `strptime` raises. -/
def reportDate (form_data : FormData) (now : Date) : String :=
  match parseYMD form_data.date with
  | some d => strftimeBdY d
  | none => strftimeBdY now

/-- `generate_html_report` (lines 606-745): the f-string template with every
interpolation site spliced verbatim between the literal segments. -/
def generate_html_report (refined_draft : Dict) (form_data : FormData)
    (sources : List Dict) (now : Date) : String :=
  htmlSeg1 ++ (form_data.topic ++ (htmlSeg2 ++ (form_data.topic ++ (htmlSeg3 ++
    (form_data.subject ++ (htmlSeg4 ++ (form_data.researcher ++ (htmlSeg5 ++
    (form_data.institution ++ (htmlSeg5 ++ (reportDate form_data now ++ (htmlSeg6 ++
    (fmtVal refined_draft "executiveSummary" "Executive summary not available." ++
    (htmlSeg7 ++ (fmtVal refined_draft "abstract" "Abstract not available." ++
    (htmlSeg8 ++ (fmtVal refined_draft "introduction" "Introduction not available." ++
    (htmlSeg9 ++ (fmtVal refined_draft "literatureReview" "Literature review not available." ++
    (htmlSeg10 ++ (mainSectionsHtml refined_draft ++
    (htmlSeg11 ++ (fmtVal refined_draft "dataAnalysis" "Data analysis not available." ++
    (htmlSeg12 ++ (fmtVal refined_draft "challenges" "Challenges not available." ++
    (htmlSeg13 ++ (fmtVal refined_draft "futureOutlook" "Future outlook not available." ++
    (htmlSeg14 ++ (fmtVal refined_draft "conclusion" "Conclusion not available." ++
    (htmlSeg15 ++ (referencesHtml sources now ++
    htmlEnd)))))))))))))))))))))))))))))))

/-!
The orchestrator `execute_research_pipeline` (lines 747-817).  All external
behaviour is supplied through the per-stage API-outcome parameters; `now`
is the run's wall-clock date, used in `dateAccessed` stamps and the
renderer's date fallbacks.  The `try/except` around the whole pipeline
sends every uncaught exception to the `error` step.
-/

/-- The projection of `analysis['subtopics']` / `analysis['researchQueries']`
to a string list (exact whenever the stored value is a JSON list of
strings, which every ensure/fallback path of the analyzer guarantees). -/
def JValue.toStrList : JValue → List String
  | .arr xs => xs.filterMap (fun v => match v with | .str s => some s | _ => none)
  | _ => []

/-- The observable outcome of one run.  The `draft` and `critique` fields
record each stage's return value at the moment the stage finished (in
Python, `st.session_state.draft` aliases the same dictionary object that
the Refiner's failure path later mutates in place when it adds
`executiveSummary`; the stage's returned structure is what the claims
speak about). -/
structure PipelineResult where
  step : String
  subtopics : List String
  queries : List String
  sources : List Dict
  draft : Option Dict
  critique : Option Dict
  finalReport : Option Dict
  htmlReport : Option String

/-- The `error` terminal state (the `except` branch at lines 812-815). -/
def pipelineError : PipelineResult :=
  { step := "error", subtopics := [], queries := [], sources := [],
    draft := none, critique := none, finalReport := none, htmlReport := none }

/-- `execute_research_pipeline` (lines 747-817). -/
def execute_research_pipeline (form_data : FormData) (apiAvailable : Bool)
    (analyzeApi : Option (Option Dict))
    (searchApis : List (Option (List Hit)))
    (draftApi critiqueApi refineApi : Option (Option Dict))
    (now : String) (nowDate : Date) : PipelineResult :=
  if !apiAvailable then pipelineError
  else
    match analyze_topic_with_ai form_data.topic form_data.subject analyzeApi with
    | none => pipelineError
    | some analysis =>
      let subtopics := (analysis.getD "subtopics" .null).toStrList
      let queries := (analysis.getD "researchQueries" .null).toStrList
      match execute_web_research queries searchApis now with
      | none => pipelineError
      | some sources =>
        let draft_content := generate_draft form_data.topic form_data.subject subtopics sources draftApi
        let critique_content := critique_draft draft_content sources critiqueApi
        let refined_content := refine_draft draft_content critique_content sources refineApi
        let html_report := generate_html_report refined_content form_data sources nowDate
        { step := "complete",
          subtopics := subtopics,
          queries := queries,
          sources := sources,
          draft := some draft_content,
          critique := some critique_content,
          finalReport := some refined_content,
          htmlReport := some html_report }

/-- Modelled from the spec: HTML escaping of text content ("escaped for the
output format"), in the usual `html.escape` sense.  The source never
performs any such escaping; this definition only states what the claim
asserts. -/
def htmlEscape (s : String) : String :=
  ⟨s.data.foldr
    (fun c acc =>
      if c = '&' then "&amp;".data ++ acc
      else if c = '<' then "&lt;".data ++ acc
      else if c = '>' then "&gt;".data ++ acc
      else if c = '"' then "&quot;".data ++ acc
      else c :: acc)
    []⟩

/-! Helper lemmas about the dictionary model and truthiness. -/

theorem data_append_ne_nil_left (s t : String) (h : s.data ≠ []) : (s ++ t).data ≠ [] := by
  rw [String.data_append]
  exact List.append_ne_nil_of_left_ne_nil h _

theorem truthy_str_of_ne_nil (s : String) (h : s.data ≠ []) :
    JValue.truthy (.str s) = true := by
  simp [JValue.truthy, List.isEmpty_eq_false]
  exact h

theorem Dict.get?_set_self (d : Dict) (k : String) (v : JValue) :
    (d.set k v).get? k = some v := by
  induction d with
  | nil => simp [Dict.set, Dict.get?]
  | cons kv rest ih =>
    by_cases h : kv.1 = k
    · simp [Dict.set, Dict.get?, h]
    · simp [Dict.set, Dict.get?, h, ih]

theorem Dict.get?_set_ne (d : Dict) (k k' : String) (v : JValue) (h : k' ≠ k) :
    (d.set k' v).get? k = d.get? k := by
  induction d with
  | nil => simp [Dict.set, Dict.get?, h]
  | cons kv rest ih =>
    by_cases h2 : kv.1 = k'
    · simp [Dict.set, Dict.get?, h2, h]
    · simp [Dict.set, Dict.get?, h2, ih]

theorem Dict.hasKey_set_self (d : Dict) (k : String) (v : JValue) :
    (d.set k v).hasKey k = true := by
  simp [Dict.hasKey, Dict.get?_set_self]

theorem Dict.hasKey_set_mono (d : Dict) (k k' : String) (v : JValue)
    (h : d.hasKey k = true) : (d.set k' v).hasKey k = true := by
  by_cases he : k' = k
  · subst he; exact Dict.hasKey_set_self d k' v
  · simpa [Dict.hasKey, Dict.get?_set_ne d k k' v he] using h

/-- Key `k` is present with a truthy value (the draft-completeness property). -/
def keyTruthy (d : Dict) (k : String) : Bool :=
  d.hasKey k && (d.getD k .null).truthy

theorem keyTruthy_set (d : Dict) (k : String) (v : JValue) (hv : v.truthy = true) :
    keyTruthy (d.set k v) k = true := by
  simp [keyTruthy, Dict.hasKey_set_self, Dict.getD, Dict.get?_set_self, hv]

theorem keyTruthy_set_ne (d : Dict) (k k' : String) (v : JValue) (hne : k' ≠ k)
    (h : keyTruthy d k = true) : keyTruthy (d.set k' v) k = true := by
  simpa [keyTruthy, Dict.hasKey, Dict.getD, Dict.get?_set_ne d k k' v hne] using h

theorem sectionPlaceholder_truthy (key topic : String) :
    (sectionPlaceholder key topic).truthy = true := by
  apply truthy_str_of_ne_nil
  apply data_append_ne_nil_left
  apply data_append_ne_nil_left
  apply data_append_ne_nil_left
  apply data_append_ne_nil_left
  decide

theorem keyTruthy_fillStep_self (topic : String) (d : Dict) (key : String) :
    keyTruthy (fillStep topic d key) key = true := by
  unfold fillStep
  by_cases h1 : (d.hasKey key && (d.getD key .null).truthy) = true
  · simpa [h1, keyTruthy] using h1
  · simp only [h1, Bool.false_eq_true, if_false]
    by_cases h2 : key = "mainSections"
    · simp only [h2, if_pos rfl]
      exact keyTruthy_set d "mainSections" mainSectionsPlaceholder (by decide)
    · simp only [h2, if_false]
      exact keyTruthy_set d key _ (sectionPlaceholder_truthy key topic)

theorem keyTruthy_fillStep_mono (topic : String) (d : Dict) (key k : String)
    (h : keyTruthy d k = true) : keyTruthy (fillStep topic d key) k = true := by
  by_cases he : key = k
  · subst he; exact keyTruthy_fillStep_self topic d key
  · unfold fillStep
    by_cases h1 : (d.hasKey key && (d.getD key .null).truthy) = true
    · simpa [h1] using h
    · simp only [h1, Bool.false_eq_true, if_false]
      by_cases h2 : key = "mainSections"
      · simp only [h2, if_pos rfl]
        exact keyTruthy_set_ne d k "mainSections" mainSectionsPlaceholder (h2 ▸ he) h
      · simp only [h2, if_false]
        exact keyTruthy_set_ne d k key _ he h

theorem keyTruthy_fillFold (topic : String) (L : List String) (d : Dict) (k : String)
    (h : k ∈ L ∨ keyTruthy d k = true) :
    keyTruthy (L.foldl (fillStep topic) d) k = true := by
  induction L generalizing d with
  | nil =>
    rcases h with h | h
    · cases h
    · simpa using h
  | cons key rest ih =>
    simp only [List.foldl_cons]
    rcases h with h | h
    · rcases List.mem_cons.mp h with he | hm
      · exact ih _ (Or.inr (he ▸ keyTruthy_fillStep_self topic d key))
      · exact ih _ (Or.inl hm)
    · exact ih _ (Or.inr (keyTruthy_fillStep_mono topic d key k h))

/-- The backfill loop `for key in draft: if key not in refined: refined[key] = draft[key]`
makes every key of `draft` (and every key already present) present. -/
theorem backfill_hasKey (pairs : List (String × JValue)) (init : Dict) (k : String)
    (h : init.hasKey k = true ∨ k ∈ pairs.map Prod.fst) :
    ((pairs.foldl
        (fun acc kv => if acc.hasKey kv.1 then acc else acc.set kv.1 kv.2) init)).hasKey k = true := by
  induction pairs generalizing init with
  | nil =>
    rcases h with h | h
    · simpa using h
    · cases h
  | cons kv rest ih =>
    simp only [List.foldl_cons]
    have hmono : ∀ k₀, init.hasKey k₀ = true →
        (if init.hasKey kv.1 = true then init else init.set kv.1 kv.2).hasKey k₀ = true := by
      intro k₀ hk₀
      by_cases hk : init.hasKey kv.1 = true
      · simpa [hk] using hk₀
      · simp only [hk, if_false]
        exact Dict.hasKey_set_mono init k₀ kv.1 kv.2 hk₀
    have hself : (if init.hasKey kv.1 = true then init else init.set kv.1 kv.2).hasKey kv.1 = true := by
      by_cases hk : init.hasKey kv.1 = true
      · simpa [hk] using hk
      · simp only [hk, if_false]
        exact Dict.hasKey_set_self init kv.1 kv.2
    simp only [List.map_cons, List.mem_cons] at h
    rcases h with h | he | hm
    · exact ih _ (Or.inl (hmono k h))
    · exact ih _ (Or.inl (he ▸ hself))
    · exact ih _ (Or.inr hm)

/-! Lemmas about the web-research stage. -/

/-- The key list of every source record built by the search stage. -/
def sourceKeys : List String :=
  ["title", "url", "content", "query", "credibilityScore", "dateAccessed"]

theorem mkSource_keys (title url context query now : String) :
    Dict.keys (mkSource title url context query now) = sourceKeys := rfl

theorem genericSource1_keys (q0 now : String) :
    Dict.keys (genericSource1 q0 now) = sourceKeys := rfl

theorem genericSource2_keys (q1 now : String) :
    Dict.keys (genericSource2 q1 now) = sourceKeys := rfl

theorem genericSource3_keys (q0 now : String) :
    Dict.keys (genericSource3 q0 now) = sourceKeys := rfl

theorem mem_collectSources_keys (queries : List String)
    (searchApis : List (Option (List Hit))) (now : String) :
    ∀ s ∈ collectSources queries searchApis now, Dict.keys s = sourceKeys := by
  intro s hs
  rcases List.mem_flatMap.mp hs with ⟨qr, -, hmem⟩
  rcases qr with ⟨q, r⟩
  cases r with
  | none => cases hmem
  | some hits =>
    simp only [processQuery, List.mem_map, List.mem_filter] at hmem
    rcases hmem with ⟨h, -, rfl⟩
    exact mkSource_keys _ _ _ _ _

theorem mem_dedupByUrl (l : List Dict) (seen : List String) :
    ∀ s ∈ dedupByUrl l seen, s ∈ l := by
  induction l generalizing seen with
  | nil => intro s hs; cases hs
  | cons x rest ih =>
    intro s hs
    unfold dedupByUrl at hs
    by_cases hx : srcUrl x ∈ seen
    · simp only [hx, if_pos] at hs
      exact List.mem_cons_of_mem x (ih seen s hs)
    · simp only [hx, if_neg, not_false_iff] at hs
      rcases List.mem_cons.mp hs with he | hm
      · exact he ▸ List.mem_cons_self x rest
      · exact List.mem_cons_of_mem x (ih _ s hm)

theorem dedupByUrl_nodup (l : List Dict) (seen : List String) :
    ((dedupByUrl l seen).map srcUrl).Nodup ∧
      ∀ u ∈ (dedupByUrl l seen).map srcUrl, u ∉ seen := by
  induction l generalizing seen with
  | nil => exact ⟨List.nodup_nil, by intro u hu; cases hu⟩
  | cons x rest ih =>
    unfold dedupByUrl
    by_cases hx : srcUrl x ∈ seen
    · simpa [hx] using ih seen
    · simp only [hx, if_neg, not_false_iff, List.map_cons]
      rcases ih (srcUrl x :: seen) with ⟨hnd, hdisj⟩
      refine ⟨List.nodup_cons.mpr ⟨?_, hnd⟩, ?_⟩
      · intro hmem
        exact hdisj _ hmem (List.mem_cons_self _ _)
      · intro u hu
        rcases List.mem_cons.mp hu with he | hm
        · exact he ▸ hx
        · intro hseen
          exact hdisj u hm (List.mem_cons_of_mem _ hseen)

/-!
Claim theorems.
-/

/-- C4 (counterexample): the claim reads the tiers as conditions on the URL's
domain, with "anything else" scoring 80.  The URL `https://evil.com/ieee.org`
has domain `evil.com`, which matches no tier, so the claim requires 80 — but
`calculate_credibility` substring-matches the whole URL and returns 90. -/
theorem calculate_credibility_not_domain_based :
    calculate_credibility "https://evil.com/ieee.org" = 90 ∧
      domainCredibility "https://evil.com/ieee.org" = 80 := by
  constructor <;> decide

/-- C4 (amended): `calculate_credibility` is the first-match evaluation of the
priority-ordered tier table, with each pattern tested as a substring of the
whole lowercased URL string (not of the domain alone); unmatched URLs score
the default 80.  As a Lean function it is deterministic, pure and total. -/
theorem calculate_credibility_tier_table (url : String) :
    calculate_credibility url = tierScore url := by
  unfold calculate_credibility tierScore credibilityTiers
  cases h1 : strContains (strLower url) ".gov" <;>
    cases h2 : strContains (strLower url) ".edu" <;>
      cases h3 : strContains (strLower url) "nature.com" <;>
        cases h4 : strContains (strLower url) "science.org" <;>
          cases h5 : strContains (strLower url) "ieee.org" <;>
            cases h6 : strContains (strLower url) "acm.org" <;>
              cases h7 : strContains (strLower url) ".org" <;>
                simp [h1, h2, h3, h4, h5, h6, h7, List.find?]

/-- C9 (counterexample): two URLs with the same host component
(`example.com`) receive different scores, because the scorer matches the
path as well: `/data.gov` in the second URL triggers the `.gov` tier. -/
theorem credibility_differs_on_equal_host :
    urlHost "https://example.com/a" = urlHost "https://example.com/data.gov" ∧
      calculate_credibility "https://example.com/a" = 80 ∧
      calculate_credibility "https://example.com/data.gov" = 95 := by
  refine ⟨by decide, by decide, by decide⟩

/-- C9 (amended): the credibility score is derived solely from the full
lowercased URL string — any two URLs with the same lowercase form (not
merely the same domain) receive the same score. -/
theorem credibility_lowercase_invariant (u v : String)
    (h : strLower u = strLower v) :
    calculate_credibility u = calculate_credibility v := by
  simp only [calculate_credibility, h]

theorem credibility_lowercase_invariant_witness :
    strLower "HTTP://A.GOV" = strLower "http://a.gov" ∧
      calculate_credibility "HTTP://A.GOV" = calculate_credibility "http://a.gov" :=
  ⟨by decide, credibility_lowercase_invariant "HTTP://A.GOV" "http://a.gov" (by decide)⟩

theorem hasKey_iff_mem_keys (d : Dict) (k : String) :
    d.hasKey k = true ↔ k ∈ d.keys := by
  induction d with
  | nil => simp [Dict.hasKey, Dict.get?, Dict.keys]
  | cons kv rest ih =>
    by_cases h : kv.1 = k
    · simp [Dict.hasKey, Dict.get?, Dict.keys, h]
    · simp only [Dict.hasKey, Dict.get?] at ih ⊢
      simp [Dict.keys, h, ih, Ne.symm h]

/-- Two case-variant duplicate hits from one query. -/
def caseVariantHits : List Hit :=
  [⟨"MIT study", "https://MIT.EDU/x", "context a"⟩,
   ⟨"MIT study dup", "https://mit.edu/x", "context b"⟩]

/-- C3 (counterexample): feeding two hits whose URLs differ only in letter
case, the returned source list keeps both — the dedup loop compares exact
URL strings, so the case-normalized URL `https://mit.edu/x` occurs twice in
the output, contradicting "at most one entry per case-normalized URL". -/
theorem web_research_keeps_case_variant_urls :
    (((execute_web_research ["q"] [some caseVariantHits] "2026-01-01T00:00:00").getD []).map
        (fun s => strLower (srcUrl s))).count "https://mit.edu/x" = 2 := by decide

/-- C3 (amended): deduplication is by exact (case-sensitive) URL string:
whenever at least three unique sources are collected (so the generic
supplement branch does not run), the returned list is exactly the
deduplicated list and its exact URLs are pairwise distinct. -/
theorem web_research_dedup_exact_url (queries : List String)
    (searchApis : List (Option (List Hit))) (now : String)
    (h : 3 ≤ (dedupByUrl (collectSources queries searchApis now) []).length) :
    execute_web_research queries searchApis now =
      some (dedupByUrl (collectSources queries searchApis now) []) ∧
    ((dedupByUrl (collectSources queries searchApis now) []).map srcUrl).Nodup := by
  constructor
  · unfold execute_web_research
    rw [if_neg (Nat.not_lt.mpr h)]
  · exact (dedupByUrl_nodup _ _).1

/-- Three distinct trusted hits, enough to skip the supplement branch. -/
def threeEduHits : List Hit :=
  [⟨"A", "https://a.edu/1", "ca"⟩,
   ⟨"B", "https://b.edu/2", "cb"⟩,
   ⟨"C", "https://c.edu/3", "cc"⟩]

theorem web_research_dedup_exact_url_witness :
    execute_web_research ["q"] [some threeEduHits] "2026-01-01T00:00:00" =
      some (dedupByUrl (collectSources ["q"] [some threeEduHits] "2026-01-01T00:00:00") []) ∧
    ((dedupByUrl (collectSources ["q"] [some threeEduHits] "2026-01-01T00:00:00") []).map srcUrl).Nodup :=
  web_research_dedup_exact_url ["q"] [some threeEduHits] "2026-01-01T00:00:00" (by decide)

/-- C10: for a non-empty query list the returned source list always has at
least three entries (when fewer than three unique sources are collected the
three generic sources are appended), so the pipeline's `len(sources) < 2`
warning branch can never trigger. -/
theorem web_research_returns_at_least_three (queries : List String)
    (searchApis : List (Option (List Hit))) (now : String) (h : queries ≠ []) :
    (execute_web_research queries searchApis now).isSome = true ∧
    3 ≤ ((execute_web_research queries searchApis now).getD []).length ∧
    decide (((execute_web_research queries searchApis now).getD []).length < 2) = false := by
  rcases queries with _ | ⟨q0, rest⟩
  · cases h rfl
  · unfold execute_web_research
    by_cases hlt : (dedupByUrl (collectSources (q0 :: rest) searchApis now) []).length < 3
    · rw [if_pos hlt]
      refine ⟨rfl, ?_, ?_⟩
      · simp only [Option.getD_some, List.length_append, List.length_cons, List.length_nil]
        omega
      · rw [decide_eq_false_iff_not]
        simp only [Option.getD_some, List.length_append, List.length_cons, List.length_nil]
        omega
    · rw [if_neg hlt]
      refine ⟨rfl, ?_, ?_⟩
      · simp only [Option.getD_some]
        omega
      · rw [decide_eq_false_iff_not]
        simp only [Option.getD_some]
        omega

theorem web_research_returns_at_least_three_witness :
    (execute_web_research ["q"] [] "2026-01-01T00:00:00").isSome = true ∧
    3 ≤ ((execute_web_research ["q"] [] "2026-01-01T00:00:00").getD []).length ∧
    decide (((execute_web_research ["q"] [] "2026-01-01T00:00:00").getD []).length < 2) = false :=
  web_research_returns_at_least_three ["q"] [] "2026-01-01T00:00:00" (by decide)

/-- A single trusted hit. -/
def eduHit : Hit := ⟨"MIT paper", "https://mit.edu/paper", "context text"⟩

/-- C7 (counterexample): a run that accepts a source produces records with
no `id` key at all — the record built at lines 334-341 has exactly the keys
title/url/content/query/credibilityScore/dateAccessed, so no accepted
Source "carries an integer id". -/
theorem accepted_source_lacks_id_field :
    (((execute_web_research ["q"] [some [eduHit]] "2026-01-01T00:00:00").getD []).all
        (fun s => !(s.hasKey "id"))) = true ∧
    ((execute_web_research ["q"] [some [eduHit]] "2026-01-01T00:00:00").getD []).length = 4 := by
  constructor <;> decide

/-- C7 (amended): every source record the search stage returns has exactly
the keys title, url, content, query, credibilityScore and dateAccessed — in
particular no `id` field; the 1-based numbering `1..N` appears only
positionally, when the renderer enumerates the list (see the reference
index theorem). -/
theorem web_research_source_keys (queries : List String)
    (searchApis : List (Option (List Hit))) (now : String) :
    ((execute_web_research queries searchApis now).getD []).all
      (fun s => decide (Dict.keys s = sourceKeys) && !(s.hasKey "id")) = true := by
  have hmem : ∀ s ∈ (execute_web_research queries searchApis now).getD [],
      Dict.keys s = sourceKeys := by
    intro s hs
    unfold execute_web_research at hs
    by_cases hlt : (dedupByUrl (collectSources queries searchApis now) []).length < 3
    · rw [if_pos hlt] at hs
      rcases queries with _ | ⟨q0, rest⟩
      · cases hs
      · simp only [Option.getD_some] at hs
        rcases List.mem_append.mp hs with hu | hg
        · exact mem_collectSources_keys _ _ _ s (mem_dedupByUrl _ _ s hu)
        · simp only [List.mem_cons, List.not_mem_nil, or_false] at hg
          rcases hg with h1 | h2 | h3
          · exact h1 ▸ genericSource1_keys _ _
          · exact h2 ▸ genericSource2_keys _ _
          · exact h3 ▸ genericSource3_keys _ _
    · rw [if_neg hlt] at hs
      simp only [Option.getD_some] at hs
      exact mem_collectSources_keys _ _ _ s (mem_dedupByUrl _ _ s hs)
  rw [List.all_eq_true]
  intro s hs
  have hk := hmem s hs
  have hid : s.hasKey "id" = false := by
    rw [Bool.eq_false_iff]
    intro hcontra
    have := (hasKey_iff_mem_keys s "id").mp hcontra
    rw [hk] at this
    exact absurd this (by decide)
  simp [hk, hid]

theorem keyTruthy_eq (d : Dict) (k : String) (v : JValue)
    (hg : d.get? k = some v) (hv : v.truthy = true) : keyTruthy d k = true := by
  simp [keyTruthy, Dict.hasKey, Dict.getD, hg, hv]

theorem draftFallback_complete (topic subject : String) (subtopics : List String) :
    ∀ k ∈ required_keys, keyTruthy (draftFallback topic subject subtopics) k = true := by
  intro k hk
  simp only [required_keys, List.mem_cons, List.not_mem_nil, or_false] at hk
  rcases hk with rfl | rfl | rfl | rfl | rfl | rfl | rfl | rfl
  · exact keyTruthy_eq _ _ _ rfl (by
      apply truthy_str_of_ne_nil
      repeat apply data_append_ne_nil_left
      decide)
  · exact keyTruthy_eq _ _ _ rfl (by
      apply truthy_str_of_ne_nil
      repeat apply data_append_ne_nil_left
      decide)
  · exact keyTruthy_eq _ _ _ rfl (by decide)
  · exact keyTruthy_eq _ _ _ rfl rfl
  · exact keyTruthy_eq _ _ _ rfl (by decide)
  · exact keyTruthy_eq _ _ _ rfl (by decide)
  · exact keyTruthy_eq _ _ _ rfl (by decide)
  · exact keyTruthy_eq _ _ _ rfl (by
      apply truthy_str_of_ne_nil
      repeat apply data_append_ne_nil_left
      decide)

/-- C5: every Writer output is complete — each of the eight required section
keys is present with a non-empty (truthy) value, whether the generation call
succeeded (missing or falsy keys are filled with placeholders), returned an
unparseable payload (`parsed = []`), or raised (canned fallback draft). -/
theorem generate_draft_complete (topic subject : String) (subtopics : List String)
    (sources : List Dict) (api : Option (Option Dict)) :
    required_keys.all
      (fun k => keyTruthy (generate_draft topic subject subtopics sources api) k) = true := by
  rw [List.all_eq_true]
  intro k hk
  cases api with
  | none => exact draftFallback_complete topic subject subtopics k hk
  | some o =>
    cases o with
    | none => exact draftFallback_complete topic subject subtopics k hk
    | some parsed =>
      exact keyTruthy_fillFold topic required_keys parsed k (Or.inl hk)

theorem refine_draft_hasKey_of_mem (draft critique : Dict) (sources : List Dict)
    (api : Option (Option Dict)) (k : String) (hk : k ∈ Dict.keys draft) :
    (refine_draft draft critique sources api).hasKey k = true := by
  cases api with
  | none =>
    exact Dict.hasKey_set_mono draft k "executiveSummary" _
      ((hasKey_iff_mem_keys draft k).mpr hk)
  | some o =>
    cases o with
    | none =>
      exact Dict.hasKey_set_mono draft k "executiveSummary" _
        ((hasKey_iff_mem_keys draft k).mpr hk)
    | some parsed =>
      exact backfill_hasKey draft _ k (Or.inr hk)

theorem refine_draft_hasKey_summary (draft critique : Dict) (sources : List Dict)
    (api : Option (Option Dict)) :
    (refine_draft draft critique sources api).hasKey "executiveSummary" = true := by
  cases api with
  | none => exact Dict.hasKey_set_self draft "executiveSummary" _
  | some o =>
    cases o with
    | none => exact Dict.hasKey_set_self draft "executiveSummary" _
    | some parsed =>
      apply backfill_hasKey
      refine Or.inl ?_
      by_cases hp : parsed.hasKey "executiveSummary" = true
      · simpa [hp] using hp
      · simp only [Bool.not_eq_true] at hp
        simp only [hp, Bool.false_eq_true, if_false]
        exact Dict.hasKey_set_self parsed "executiveSummary" _

/-- C6: the Refiner is additive — for any draft, critique and source list,
and any backend outcome (success, unparseable payload, or exception), the
refined document keeps every key of the input draft and additionally has
`executiveSummary`. -/
theorem refine_draft_superset (draft critique : Dict) (sources : List Dict)
    (api : Option (Option Dict)) :
    ((Dict.keys draft).all (fun k => (refine_draft draft critique sources api).hasKey k) &&
      (refine_draft draft critique sources api).hasKey "executiveSummary") = true := by
  rw [Bool.and_eq_true, List.all_eq_true]
  exact ⟨fun k hk => refine_draft_hasKey_of_mem draft critique sources api k hk,
    refine_draft_hasKey_summary draft critique sources api⟩

/-- The run in which the API key is configured but every Anthropic call
raises: the analyzer, writer, critic and refiner outcomes are all `none`,
and each of the (at most six) per-query search calls raises as well. -/
def allFailRun (form_data : FormData) (now : String) (nowDate : Date) : PipelineResult :=
  execute_research_pipeline form_data true none (List.replicate 6 none)
    none none none now nowDate

/-- C2: when the generative backend raises on every call (API key present),
the Writer, Critic and Refiner still return their documented fallback
structures, the search stage returns the three generic supplementary
sources, and the run ends in the `complete` state, not `error`. -/
theorem pipeline_completes_when_api_always_fails (form_data : FormData)
    (now : String) (nowDate : Date) :
    (allFailRun form_data now nowDate).step = "complete" ∧
    (allFailRun form_data now nowDate).sources =
      [genericSource1 (form_data.topic ++ " overview") now,
       genericSource2 (form_data.topic ++ " latest research") now,
       genericSource3 (form_data.topic ++ " overview") now] ∧
    (allFailRun form_data now nowDate).draft =
      some (draftFallback form_data.topic form_data.subject
        ["Overview of " ++ form_data.topic,
         "Current State and Statistics",
         "Applications and Use Cases",
         "Challenges and Limitations",
         "Future Outlook"]) ∧
    (allFailRun form_data now nowDate).critique = some critiqueFallback ∧
    (allFailRun form_data now nowDate).finalReport =
      some ((draftFallback form_data.topic form_data.subject
        ["Overview of " ++ form_data.topic,
         "Current State and Statistics",
         "Applications and Use Cases",
         "Challenges and Limitations",
         "Future Outlook"]).set "executiveSummary" (refineFallbackSummary 3)) :=
  ⟨rfl, rfl, rfl, rfl, rfl⟩

theorem strContains_head (p b : String) : strContains (p ++ b) p = true := by
  simp only [strContains, decide_eq_true_eq, String.data_append]
  exact ⟨[], b.data, rfl⟩

/-- C1 (counterexample): with `<script>alert(1)</script>` as the topic, the
rendered HTML contains that markup verbatim (the template interpolates the
field with no escaping), while its HTML-escaped form differs — so markup
from the topic is emitted unescaped, contradicting the claim. -/
theorem html_report_emits_raw_markup :
    strContains
      (generate_html_report []
        { topic := "<script>alert(1)</script>", subject := "S",
          researcher := "R", institution := "I", date := "2026-01-01" }
        [] ⟨2026, 1, 1⟩)
      "<script>alert(1)</script>" = true ∧
    (htmlEscape "<script>alert(1)</script>" == "<script>alert(1)</script>") = false := by
  constructor
  · unfold generate_html_report
    apply strContains_right
    exact strContains_head _ _
  · decide

/-- C1 (amended): the Renderer applies no escaping at all — every metadata
field (topic, subject, researcher, institution) is interpolated verbatim
into the HTML artifact, so any markup those fields contain is emitted
unescaped into the output document. -/
theorem html_report_interpolates_fields_verbatim (refined_draft : Dict)
    (form_data : FormData) (sources : List Dict) (now : Date) :
    strContains (generate_html_report refined_draft form_data sources now)
        form_data.topic = true ∧
    strContains (generate_html_report refined_draft form_data sources now)
        form_data.subject = true ∧
    strContains (generate_html_report refined_draft form_data sources now)
        form_data.researcher = true ∧
    strContains (generate_html_report refined_draft form_data sources now)
        form_data.institution = true := by
  unfold generate_html_report
  refine ⟨?_, ?_, ?_, ?_⟩
  · apply strContains_right
    exact strContains_head _ _
  · apply strContains_right
    apply strContains_right
    apply strContains_right
    apply strContains_right
    apply strContains_right
    exact strContains_head _ _
  · apply strContains_right
    apply strContains_right
    apply strContains_right
    apply strContains_right
    apply strContains_right
    apply strContains_right
    apply strContains_right
    exact strContains_head _ _
  · apply strContains_right
    apply strContains_right
    apply strContains_right
    apply strContains_right
    apply strContains_right
    apply strContains_right
    apply strContains_right
    apply strContains_right
    apply strContains_right
    exact strContains_head _ _

/-- A source whose `dateAccessed` parses as an ISO date (as every record
stamped by the search stage does). -/
def hasParseableDate (s : Dict) : Bool :=
  match s.get? "dateAccessed" with
  | some (.str str) => (parseIso str).isSome
  | _ => false

theorem refAccessDate_of_parseable (s : Dict) (d1 d2 : Date)
    (h : hasParseableDate s = true) : refAccessDate s d1 = refAccessDate s d2 := by
  unfold hasParseableDate at h
  unfold refAccessDate
  cases hg : s.get? "dateAccessed" with
  | none => rw [hg] at h; cases h
  | some v =>
    rw [hg] at h
    cases v with
    | str str =>
      dsimp only at h ⊢
      cases hp : parseIso str with
      | none => rw [hp] at h; simp at h
      | some d => simp [hp]
    | null => exact Bool.noConfusion h
    | bool b => exact Bool.noConfusion h
    | num n => exact Bool.noConfusion h
    | arr xs => exact Bool.noConfusion h
    | obj fs => exact Bool.noConfusion h

theorem reference_item_of_parseable (i : Nat) (s : Dict) (d1 d2 : Date)
    (h : hasParseableDate s = true) :
    reference_item i s d1 = reference_item i s d2 := by
  unfold reference_item
  rw [refAccessDate_of_parseable s d1 d2 h]

theorem referenceItems_of_parseable (k : Nat) (sources : List Dict) (d1 d2 : Date)
    (h : sources.all hasParseableDate = true) :
    referenceItems k sources d1 = referenceItems k sources d2 := by
  induction sources generalizing k with
  | nil => rfl
  | cons s rest ih =>
    rw [List.all_cons, Bool.and_eq_true] at h
    unfold referenceItems
    rw [reference_item_of_parseable k s d1 d2 h.1, ih (k + 1) h.2]

theorem referenceItems_getElem (k : Nat) (sources : List Dict) (now : Date) (i : Nat) :
    (referenceItems k sources now)[i]? =
      (sources[i]?).map (fun s => reference_item (k + i) s now) := by
  induction sources generalizing k i with
  | nil => simp [referenceItems]
  | cons s rest ih =>
    cases i with
    | zero => simp [referenceItems]
    | succ n =>
      simp only [referenceItems, List.getElem?_cons_succ, ih (k + 1) n]
      rw [show k + 1 + n = k + (n + 1) from by omega]

/-- C8 (amended): given the same source list in the same order, the
references block is byte-identical across repeated calls whenever every
source's `dateAccessed` parses as an ISO date (which holds for all records
the pipeline itself stamps); the i-th rendered reference is exactly the
entry for the i-th source with the 1-based index `i + 1` assigned by list
position. -/
theorem references_deterministic (sources : List Dict) (d1 d2 : Date)
    (h : sources.all hasParseableDate = true) :
    referencesHtml sources d1 = referencesHtml sources d2 ∧
    ∀ i : Nat, (referenceItems 1 sources d1)[i]? =
      (sources[i]?).map (fun s => reference_item (1 + i) s d1) := by
  constructor
  · unfold referencesHtml
    rw [referenceItems_of_parseable 1 sources d1 d2 h]
  · intro i
    exact referenceItems_getElem 1 sources d1 i

theorem references_deterministic_witness :
    (referencesHtml [[("title", .str "T"), ("url", .str "https://x.edu/a"),
        ("dateAccessed", .str "2026-01-05T12:00:00")]] ⟨2026, 1, 1⟩ =
      referencesHtml [[("title", .str "T"), ("url", .str "https://x.edu/a"),
        ("dateAccessed", .str "2026-01-05T12:00:00")]] ⟨2026, 1, 2⟩) ∧
    ∀ i : Nat,
      (referenceItems 1 [[("title", .str "T"), ("url", .str "https://x.edu/a"),
          ("dateAccessed", .str "2026-01-05T12:00:00")]] ⟨2026, 1, 1⟩)[i]? =
        ([[("title", .str "T"), ("url", .str "https://x.edu/a"),
          ("dateAccessed", .str "2026-01-05T12:00:00")]] : List Dict)[i]?.map
          (fun s => reference_item (1 + i) s ⟨2026, 1, 1⟩) :=
  references_deterministic
    [[("title", .str "T"), ("url", .str "https://x.edu/a"),
      ("dateAccessed", .str "2026-01-05T12:00:00")]]
    ⟨2026, 1, 1⟩ ⟨2026, 1, 2⟩ (by decide)

/-- A source record whose `dateAccessed` is not a parseable date. -/
def badDateSource : Dict :=
  [("title", .str "T"), ("url", .str "https://x.edu/a"),
   ("dateAccessed", .str "not-a-date")]

/-- C8 (counterexample): for a source whose `dateAccessed` does not parse,
the bare `except` substitutes `datetime.now()`, so two renderings of the
same source list on different days produce different reference bytes —
the output is not byte-identical across repeated calls in general. -/
theorem references_differ_across_days :
    (referencesHtml [badDateSource] ⟨2026, 1, 1⟩ ==
      referencesHtml [badDateSource] ⟨2026, 1, 2⟩) = false := by decide
